import Mathlib

/-!
Verification of the cppunzip header-only ZIP reader (src/cppunzip.hpp).

The development shallowly embeds the archive-parsing pipeline of the
source: the byte-source capability (`File`), little-endian field decoding
(`Read2Byte`, `Read4Byte`), the End-Of-Central-Directory locator
(`findEndOfCDRInBlock`, `attemptWindow`, `readEOCDRecord`), the central
directory iterator (`readOneAt`, `CDReader.readOne`, `CDReader.isEnd`),
content-offset resolution (`readFileContentOffset`) and content reading
with store/deflate dispatch (`readRawContentAt`, `decompressRawContent`,
`doInflate`, `readContent`).  Machine bytes are modelled as `Nat` values;
writes into `uint8_t` buffers truncate with `% 256`.  The zlib inflate
call is an external collaborator and is modelled as an abstract primitive
(`InflatePrim`) whose observable outcome mirrors the fields the source
inspects (`z_stream.total_out` and the return status) plus the field it
ignores (`avail_in`).  Exceptions become `Except UnZipError`.
-/

/-- Error type of the source: the single exception struct `UnZipError`,
a `std::runtime_error` carrying only a message string.  Every failure in
the source throws this one type; failures differ only in message text. -/
inductive UnZipError where
  | mk (msg : String)
deriving DecidableEq, Repr

/-- Byte-source capability, mirroring `cppunzip::File`: a size plus a
read-at-offset function.  `readAtImpl pos len` returns the bytes actually
delivered (the C++ `_readAt` writes them into a `uint8_t*` buffer and
returns their count; here the returned list carries both). -/
structure File where
  size : Nat
  readAtImpl : Nat → Nat → List Nat

/-- Mirrors `File::readAt`: guard `pos > _size`, then delegate.  Bytes
land in a `uint8_t` buffer, so each value is truncated modulo 256. -/
def File.readAt (f : File) (pos sz : Nat) : Except UnZipError (List Nat) :=
  if pos > f.size then
    .error (.mk "Try to read outside of file end.")
  else
    .ok ((f.readAtImpl pos sz).map (fun b => b % 256))

/-- Mirrors `File::readSpecificSize`: read, then fail with `errMsg` when
fewer (or other than) `sz` bytes came back. -/
def File.readSpecificSize (f : File) (offset sz : Nat) (errMsg : String) :
    Except UnZipError (List Nat) :=
  match f.readAt offset sz with
  | .error e => .error e
  | .ok bs => if bs.length ≠ sz then .error (.mk errMsg) else .ok bs

/-- Canonical in-memory byte source (the `IStreamFile`-style backing over
a buffer): reading at `pos` delivers the bytes present there, short only
at end-of-source. -/
def File.ofBytes (bytes : List Nat) : File :=
  { size := bytes.length
  , readAtImpl := fun pos sz => (bytes.drop pos).take sz }

/-- Mirrors `impl::Read2Byte`: little-endian 16-bit assembly from two
bytes of the buffer. -/
def Read2Byte (buf : List Nat) (pos : Nat) : Nat :=
  buf.getD pos 0 + buf.getD (pos + 1) 0 * 256

/-- Mirrors `impl::Read4Byte`: little-endian 32-bit assembly from four
bytes of the buffer. -/
def Read4Byte (buf : List Nat) (pos : Nat) : Nat :=
  buf.getD pos 0 + buf.getD (pos + 1) 0 * 256 +
    buf.getD (pos + 2) 0 * 65536 + buf.getD (pos + 3) 0 * 16777216

/-- Mirrors `impl::EOCDRecord`: the decoded End-Of-Central-Directory
fields the source keeps (entry count, directory size, directory offset). -/
structure EOCDRecord where
  cdEntryNum : Nat
  cdSize : Nat
  cdOffset : Nat
deriving DecidableEq, Repr

/-- Acceptance test of one candidate position inside
`EOCDRReader::findEndOfCDRInBlock`: the four signature bytes
`50 4B 05 06` match and the comment length stored at `pos + 20` keeps the
whole record inside the `len` bytes that were read. -/
def eocdrAccept (buf : List Nat) (len pos : Nat) : Prop :=
  buf.getD pos 0 = 0x50 ∧ buf.getD (pos + 1) 0 = 0x4b ∧
    buf.getD (pos + 2) 0 = 0x05 ∧ buf.getD (pos + 3) 0 = 0x06 ∧
    pos + 22 + Read2Byte buf (pos + 20) ≤ len

instance eocdrAccept.instDecidable (buf : List Nat) (len pos : Nat) :
    Decidable (eocdrAccept buf len pos) := by
  unfold eocdrAccept
  infer_instance

/-- Backward scan of `EOCDRReader::findEndOfCDRInBlock`, descending from
the start position `pos` to 0 and returning the first (hence largest)
accepted candidate. -/
def findAux (buf : List Nat) (len : Nat) : Nat → Option Nat
  | 0 => if eocdrAccept buf len 0 then some 0 else none
  | p + 1 => if eocdrAccept buf len (p + 1) then some (p + 1) else findAux buf len p

/-- Mirrors `EOCDRReader::findEndOfCDRInBlock`: scan backward from
`len - 22`; with fewer than 22 bytes the C++ loop starts at a negative
`pos` and never runs (return -1, here `none`). -/
def findEndOfCDRInBlock (buf : List Nat) (len : Nat) : Option Nat :=
  if len < 22 then none else findAux buf len (len - 22)

/-- Continuation of one window-loop iteration of
`EOCDRReader::readEOCDRecord` after the trailing read delivered `buf`:
throw when at most 22 bytes came back (`readSize <= EOCDR_SIZE`),
otherwise scan the block and, on a hit, decode the record fields at
fixed offsets 10, 12 and 16 from the signature; `none` means "signature
not found, try the next window". -/
def scanBlock (buf : List Nat) : Except UnZipError (Option EOCDRecord) :=
  if buf.length ≤ 22 then
    .error (.mk "Can\x27t read enough size for End of Central Directory Record. Too small file or read error.")
  else
    match findEndOfCDRInBlock buf buf.length with
    | none => .ok none
    | some sigPos =>
      .ok (some ⟨Read2Byte (buf.drop sigPos) 10, Read4Byte (buf.drop sigPos) 12,
        Read4Byte (buf.drop sigPos) 16⟩)

/-- One iteration of the window loop in `EOCDRReader::readEOCDRecord`
at trailing-window size `bufSize`: read the last `bufSize` bytes of the
source, then process them with `scanBlock`. -/
def attemptWindow (f : File) (bufSize : Nat) : Except UnZipError (Option EOCDRecord) :=
  match f.readAt (if f.size > bufSize then f.size - bufSize else 0) bufSize with
  | .error e => .error e
  | .ok buf => scanBlock buf

/-- Mirrors `EOCDRReader::readEOCDRecord`: try the 1024-byte trailing
window, then the 65*1024-byte one, then give up. -/
def readEOCDRecord (f : File) : Except UnZipError EOCDRecord :=
  match attemptWindow f 1024 with
  | .error e => .error e
  | .ok (some r) => .ok r
  | .ok none =>
    match attemptWindow f (65 * 1024) with
    | .error e => .error e
    | .ok (some r) => .ok r
    | .ok none => .error (.mk "Can\x27t find End of Central Directory Record. Corrupted zip file.")

/-- Mirrors `UnZipper::fileEntryNum`: the declared entry count straight
from the End-Of-Central-Directory record. -/
def fileEntryNum (e : EOCDRecord) : Nat := e.cdEntryNum

/-- Mirrors `impl::CDRecord`: the fields decoded from one 46-byte central
directory header plus its three variable-length trailers.  `fileName` and
`comment` are byte lists (the C++ `std::string` holds raw bytes). -/
structure CDRecord where
  flags : Nat
  compressionMethod : Nat
  lastModTime : Nat
  lastModDate : Nat
  crc : Nat
  compressedSize : Nat
  uncompressedSize : Nat
  fileNameLength : Nat
  extraFieldLength : Nat
  commentLength : Nat
  internalFileAttrs : Nat
  externalFileAttrs : Nat
  localHeaderOffset : Nat
  fileName : List Nat
  extraField : List Nat
  comment : List Nat
deriving DecidableEq, Repr

/-- Mirrors `CDRecord::isDir`: nonempty name ending in the byte of the
slash character (47). -/
def CDRecord.isDir (r : CDRecord) : Bool :=
  decide (r.fileName.length ≠ 0 ∧ r.fileName.getD (r.fileName.length - 1) 0 = 47)

/-- Cursor state of `impl::CDReader`: current offset and end offset of
the central-directory byte range. -/
structure CDReaderState where
  curOffset : Nat
  endOffset : Nat
deriving DecidableEq, Repr

/-- Mirrors the `CDReader(file, eocd)` constructor: cursor at
`_cdOffset`, end at `_cdOffset + _cdSize`. -/
def mkCDReaderState (e : EOCDRecord) : CDReaderState :=
  ⟨e.cdOffset, e.cdOffset + e.cdSize⟩

/-- Mirrors `CDReader::isEnd`: `_curOffset >= _endOffset`. -/
def CDReader.isEnd (s : CDReaderState) : Bool :=
  decide (s.endOffset ≤ s.curOffset)

/-- Body of `CDReader::readOne` as a function of the cursor only (the
C++ body never consults `_endOffset`): decode the 46-byte header at
`cur`, check the `50 4B 01 02` signature, read the three variable-length
trailers, and return the record together with the advanced cursor. -/
def readOneAt (f : File) (cur : Nat) : Except UnZipError (CDRecord × Nat) :=
  match f.readSpecificSize cur 46 "Fail to read expected size in CDReader" with
  | .error e => .error e
  | .ok buf =>
    if buf.getD 0 0 = 0x50 ∧ buf.getD 1 0 = 0x4b ∧ buf.getD 2 0 = 0x01 ∧ buf.getD 3 0 = 0x02 then
      match f.readSpecificSize (cur + 46) (Read2Byte buf 28) "Fail to read expected size in CDReader" with
      | .error e => .error e
      | .ok fileName =>
        match f.readSpecificSize (cur + 46 + Read2Byte buf 28) (Read2Byte buf 30)
            "Fail to read expected size in CDReader" with
        | .error e => .error e
        | .ok extraField =>
          match f.readSpecificSize (cur + 46 + Read2Byte buf 28 + Read2Byte buf 30) (Read2Byte buf 32)
              "Fail to read expected size in CDReader" with
          | .error e => .error e
          | .ok comment =>
            .ok ({ flags := Read2Byte buf 8
                 , compressionMethod := Read2Byte buf 10
                 , lastModTime := Read2Byte buf 12
                 , lastModDate := Read2Byte buf 14
                 , crc := Read4Byte buf 16
                 , compressedSize := Read4Byte buf 20
                 , uncompressedSize := Read4Byte buf 24
                 , fileNameLength := Read2Byte buf 28
                 , extraFieldLength := Read2Byte buf 30
                 , commentLength := Read2Byte buf 32
                 , internalFileAttrs := Read2Byte buf 36
                 , externalFileAttrs := Read4Byte buf 38
                 , localHeaderOffset := Read4Byte buf 42
                 , fileName := fileName
                 , extraField := extraField
                 , comment := comment },
              cur + 46 + Read2Byte buf 28 + Read2Byte buf 30 + Read2Byte buf 32)
    else
      .error (.mk "Central Directory header signature does not match.")

/-- Mirrors `CDReader::readOne` on the full cursor state (also the
facade's `FileEntryLister::readNext`, which performs no end check). -/
def CDReader.readOne (f : File) (s : CDReaderState) :
    Except UnZipError (CDRecord × CDReaderState) :=
  match readOneAt f s.curOffset with
  | .error e => .error e
  | .ok (rec, cur) => .ok (rec, ⟨cur, s.endOffset⟩)

/-- Observable outcome of one call to the external zlib inflate
primitive, as the source inspects it: the return status (`Z_STREAM_END`
is 1), `z_stream.total_out`, the input left unconsumed (`avail_in`,
which the source never reads), and the bytes written to the destination
buffer. -/
structure InflateResult where
  status : Int
  totalOut : Nat
  availIn : Nat
  output : List Nat

/-- External inflate collaborator: from the supplied compressed bytes
and the destination capacity, the observable outcome of the call. -/
def InflatePrim := List Nat → Nat → InflateResult

/-- Content of a `dstSize`-byte zero-initialized destination buffer after
`written` bytes were placed at its front. -/
def fillBuffer (dstSize : Nat) (written : List Nat) : List Nat :=
  written.take dstSize ++ List.replicate (dstSize - (written.take dstSize).length) 0

/-- Mirrors `Inflater::doInflate`: run the primitive on `srcSize` input
bytes with a `dstSize`-byte destination; fail unless the status is
`Z_STREAM_END` (1); then fail unless `total_out` equals `dstSize`.  The
primitive's `avail_in` is never examined. -/
def doInflate (pr : InflatePrim) (src : List Nat) (srcSize dstSize : Nat) :
    Except UnZipError (List Nat) :=
  if (pr (src.take srcSize) dstSize).status ≠ 1 then
    .error (.mk ("Fail to inflate: " ++ toString (pr (src.take srcSize) dstSize).status))
  else if (pr (src.take srcSize) dstSize).totalOut ≠ dstSize then
    .error (.mk "Not enough deflate result.")
  else
    .ok (fillBuffer dstSize (pr (src.take srcSize) dstSize).output)

/-- Mirrors `FileEntryReader::readFileContentOffset`: read the 30-byte
Local File Header at `_localHeaderOffset`, check the `50 4B 03 04`
signature, take the name and extra-field lengths from that local header,
and fail when the computed content offset is not strictly below the
source size. -/
def readFileContentOffset (f : File) (e : CDRecord) : Except UnZipError Nat :=
  match f.readSpecificSize e.localHeaderOffset 30 "Fail to read expected size in FileEntryReader" with
  | .error er => .error er
  | .ok buf =>
    if buf.getD 0 0 = 0x50 ∧ buf.getD 1 0 = 0x4b ∧ buf.getD 2 0 = 0x03 ∧ buf.getD 3 0 = 0x04 then
      if e.localHeaderOffset + 30 + Read2Byte buf 26 + Read2Byte buf 28 ≥ f.size then
        .error (.mk "Wrong local file header. File content offset exceeds file size.")
      else
        .ok (e.localHeaderOffset + 30 + Read2Byte buf 26 + Read2Byte buf 28)
    else
      .error (.mk "Local File header signature does not match.")

/-- Mirrors the vector overload of `FileEntryReader::readRawContent`:
read `_compressedSize` bytes at the resolved content offset and fail when
fewer came back. -/
def readRawContentAt (f : File) (e : CDRecord) (off : Nat) :
    Except UnZipError (List Nat) :=
  match f.readAt off e.compressedSize with
  | .error er => .error er
  | .ok bs =>
    if bs.length ≠ e.compressedSize then
      .error (.mk "Can\x27t read enough in readRawContent.")
    else
      .ok bs

/-- Mirrors `FileEntryReader::decompressRawContent`: reject store and any
method other than deflate, reject undersized buffers, then inflate
`_compressedSize` input bytes into `_uncompressedSize` output bytes. -/
def decompressRawContent (pr : InflatePrim) (e : CDRecord) (src : List Nat)
    (srcSize dstSize : Nat) : Except UnZipError (List Nat) :=
  if e.compressionMethod = 0 then
    .error (.mk "File is uncompressed, no need to call decompressRawContent")
  else if e.compressionMethod ≠ 8 then
    .error (.mk "Only deflate compression is supported")
  else if srcSize < e.compressedSize ∨ dstSize < e.uncompressedSize then
    .error (.mk "srcSize or dstSize of decompressRawContent mismatch.")
  else
    doInflate pr src e.compressedSize e.uncompressedSize

/-- Mirrors `FileEntryReader::readContent` together with the
constructor's offset resolution (also the facade's
`FileEntry::readContent`): resolve the content offset, read the raw
bytes, return them as-is for store (method 0), reject any method other
than deflate, and inflate for deflate (method 8). -/
def readContent (pr : InflatePrim) (f : File) (e : CDRecord) :
    Except UnZipError (List Nat) :=
  match readFileContentOffset f e with
  | .error er => .error er
  | .ok off =>
    match readRawContentAt f e off with
    | .error er => .error er
    | .ok rawContent =>
      if e.compressionMethod = 0 then
        .ok rawContent
      else if e.compressionMethod ≠ 8 then
        .error (.mk "Only deflate compression is supported")
      else
        decompressRawContent pr e rawContent rawContent.length e.uncompressedSize

/-- Central-directory record value with all fields zero or empty; the
concrete entries below override the fields under test. -/
def baseEntry : CDRecord :=
  { flags := 0, compressionMethod := 0, lastModTime := 0, lastModDate := 0, crc := 0
  , compressedSize := 0, uncompressedSize := 0, fileNameLength := 0, extraFieldLength := 0
  , commentLength := 0, internalFileAttrs := 0, externalFileAttrs := 0, localHeaderOffset := 0
  , fileName := [], extraField := [], comment := [] }

/-- Well-formed 30-byte Local File Header with zero name and extra-field
lengths (signature `50 4B 03 04`). -/
def lfh30 : List Nat :=
  [0x50, 0x4b, 0x03, 0x04, 0, 0, 0, 0, 0, 0, 0, 0, 0, 0, 0,
   0, 0, 0, 0, 0, 0, 0, 0, 0, 0, 0, 0, 0, 0, 0]

/-- Store-method entry whose compressed size (2) and uncompressed size
(3) disagree. -/
def storeEntry : CDRecord :=
  { baseEntry with compressionMethod := 0, compressedSize := 2, uncompressedSize := 3 }

/-- Archive bytes for `storeEntry`: local header followed by the two raw
content bytes. -/
def storeFile : File := File.ofBytes (lfh30 ++ [1, 2])

/-- Inflate primitive that is never consulted on the store path. -/
def noInflate : InflatePrim := fun _ _ => ⟨0, 0, 0, []⟩

/-- Entry with the unsupported compression method 5. -/
def method5Entry : CDRecord :=
  { baseEntry with compressionMethod := 5, compressedSize := 1, uncompressedSize := 1 }

/-- Archive bytes for `method5Entry`: local header plus one raw byte. -/
def m5File : File := File.ofBytes (lfh30 ++ [170])

/-- Byte source of 46 zero bytes: a full-size central-directory read
whose signature does not match. -/
def zeroFile : File := File.ofBytes (List.replicate 46 0)

/-- A complete 46-byte central-directory record with zero-length name,
extra field and comment (signature `50 4B 01 02`). -/
def cdSigRec : List Nat := [0x50, 0x4b, 0x01, 0x02] ++ List.replicate 42 0

/-- Byte source holding exactly one packed central-directory record. -/
def cdRecFile : File := File.ofBytes cdSigRec

/-- Deflate-method entry with compressed size 3 and uncompressed size 2. -/
def defEntry : CDRecord :=
  { baseEntry with compressionMethod := 8, compressedSize := 3, uncompressedSize := 2 }

/-- Archive bytes for `defEntry`: local header plus three compressed
bytes. -/
def defFile : File := File.ofBytes (lfh30 ++ [9, 9, 9])

/-- Inflate outcome in which the stream ends (status 1) and fills the
destination exactly, yet one input byte is left unconsumed. -/
def leftoverPrim : InflatePrim := fun _ dstSize => ⟨1, dstSize, 1, [7, 7]⟩

/-- Inflate outcome in which the stream ends, fills the destination
exactly and consumes all input. -/
def goodPrim : InflatePrim := fun _ dstSize => ⟨1, dstSize, 0, List.replicate dstSize 65⟩

/-- The minimal 22-byte archive: an End-Of-Central-Directory record with
entry count 0, directory size 0, directory offset 0 and empty comment. -/
def minimal22 : List Nat :=
  [0x50, 0x4b, 0x05, 0x06, 0, 0, 0, 0, 0, 0, 0, 0, 0, 0, 0, 0, 0, 0, 0, 0, 0, 0]

/-- A 23-byte source that opens successfully although its record claims
directory size 100 at directory offset 1000, far past the source end. -/
def badZip : List Nat :=
  [0x50, 0x4b, 0x05, 0x06, 0, 0, 0, 0, 0, 0, 0, 0, 100, 0, 0, 0, 232, 3, 0, 0, 1, 0, 0]

/-- A 44-byte block holding two accepted End-Of-Central-Directory
candidates: one at offset 0 whose comment length 22 spans the rest, and
one at offset 22 with an empty comment. -/
def twoRecBuf : List Nat :=
  [0x50, 0x4b, 0x05, 0x06, 0, 0, 0, 0, 0, 0, 0, 0, 0, 0, 0, 0, 0, 0, 0, 0, 22, 0] ++ minimal22

/-- Family of 0-entry archives: the End-Of-Central-Directory record
(entry count 0, directory size 0, directory offset 0) followed by a
comment of `n` zero bytes; `n = 0` gives `minimal22`. -/
def emptyZipBytes (n : Nat) : List Nat :=
  [0x50, 0x4b, 0x05, 0x06, 0, 0, 0, 0, 0, 0, 0, 0, 0, 0, 0, 0, 0, 0, 0, 0, n % 256, n / 256] ++
    List.replicate n 0

/-- Index transfer for reads at an offset into a dropped prefix. -/
theorem getD_drop_add (l : List Nat) (i j : Nat) (d : Nat) :
    (l.drop i).getD j d = l.getD (i + j) d := by
  simp [List.getD_eq_getElem?_getD, List.getElem?_drop]

/-- Raw-content reads that succeed return exactly the compressed size,
enforced by the length check in `readRawContent`. -/
theorem readRawContentAt_length {f : File} {e : CDRecord} {off : Nat} {raw : List Nat}
    (h : readRawContentAt f e off = .ok raw) : raw.length = e.compressedSize := by
  unfold readRawContentAt at h
  cases hr : f.readAt off e.compressedSize with
  | error er => simp only [hr] at h; exact Except.noConfusion h
  | ok bs =>
    simp only [hr] at h
    split at h
    · exact absurd h (by simp)
    · rename_i hl
      injection h with h2
      subst h2
      omega

/-- Claim C1, counterexample: on the store-method entry whose compressed
size 2 differs from its uncompressed size 3, `readContent` succeeds and
returns the 2 raw bytes; it neither returns `uncompressedSize` bytes nor
fails on the mismatch. -/
theorem C1_counterexample :
    readContent noInflate storeFile storeEntry = .ok [1, 2] ∧
    storeEntry.uncompressedSize = 3 ∧
    storeEntry.compressedSize ≠ storeEntry.uncompressedSize :=
  ⟨rfl, rfl, by decide⟩

/-- Claim C1, amended: for every store-method entry (`compressionMethod
= 0`), a successful `readContent` returns a byte vector whose length
equals `entry.compressedSize`; the source never compares it with
`entry.uncompressedSize`, so a mismatch between the two sizes is not
detected. -/
theorem C1_store_returns_compressed_size (pr : InflatePrim) (f : File) (e : CDRecord)
    (hm : e.compressionMethod = 0) (bs : List Nat)
    (h : readContent pr f e = .ok bs) : bs.length = e.compressedSize := by
  unfold readContent at h
  cases h1 : readFileContentOffset f e with
  | error er => simp only [h1] at h; exact Except.noConfusion h
  | ok off =>
    simp only [h1] at h
    cases h2 : readRawContentAt f e off with
    | error er => simp only [h2] at h; exact Except.noConfusion h
    | ok raw =>
      simp only [h2] at h
      rw [if_pos hm] at h
      injection h with h3
      rw [← h3]
      exact readRawContentAt_length h2

/-- Claim C1, witness: the amended theorem applied to the concrete
store-method archive. -/
theorem C1_store_returns_compressed_size_witness :
    storeEntry.compressionMethod = 0 ∧
    ([1, 2] : List Nat).length = storeEntry.compressedSize :=
  ⟨rfl, C1_store_returns_compressed_size noInflate storeFile storeEntry rfl [1, 2] rfl⟩

/-- Claim C7, counterexample: the failure for an unsupported compression
method and the failure for a corrupted central-directory signature are
both values of the one constructor `UnZipError.mk`; the source has a
single error kind, so the two failures differ only in message text, not
in kind. -/
theorem C7_counterexample :
    readContent noInflate m5File method5Entry =
      .error (.mk "Only deflate compression is supported") ∧
    readOneAt zeroFile 0 =
      .error (.mk "Central Directory header signature does not match.") :=
  ⟨rfl, rfl⟩

/-- Claim C7, amended: for every entry whose compression method is
neither 0 nor 8 (and whose offset resolution and raw read succeed),
`readContent` fails with the single `UnZipError` kind carrying the
message "Only deflate compression is supported"; it is distinguishable
from format failures only by that message text. -/
theorem C7_unsupported_method_error (pr : InflatePrim) (f : File) (e : CDRecord)
    (off : Nat) (raw : List Nat)
    (h1 : readFileContentOffset f e = .ok off)
    (h2 : readRawContentAt f e off = .ok raw)
    (hm0 : e.compressionMethod ≠ 0) (hm8 : e.compressionMethod ≠ 8) :
    readContent pr f e = .error (.mk "Only deflate compression is supported") := by
  unfold readContent
  simp only [h1, h2]
  rw [if_neg hm0, if_pos hm8]

/-- Claim C7, witness: the amended theorem applied to the concrete
method-5 archive. -/
theorem C7_unsupported_method_error_witness :
    readContent noInflate m5File method5Entry =
      .error (.mk "Only deflate compression is supported") :=
  C7_unsupported_method_error noInflate m5File method5Entry 30 [170] rfl rfl
    (by decide) (by decide)

/-- Claim C6, counterexample: the 23-byte source `badZip` opens
successfully although its record declares directory offset 1000 and
directory size 100, so `directoryOffset + directorySize` exceeds the
source size; `readEOCDRecord` performs no such validation. -/
theorem C6_counterexample :
    readEOCDRecord (File.ofBytes badZip) = .ok ⟨0, 100, 1000⟩ ∧
    (EOCDRecord.mk 0 100 1000).cdOffset + (EOCDRecord.mk 0 100 1000).cdSize >
      (File.ofBytes badZip).size :=
  ⟨rfl, by decide⟩

/-- Claim C6, amended: opening does not establish the invariant
`directoryOffset + directorySize <= sourceSize`; the violation surfaces
only at directory-read time: every central-directory read at a cursor
beyond the source size fails with the read-guard error of `File.readAt`. -/
theorem C6_directory_read_past_end_fails (f : File) (cur : Nat) (h : f.size < cur) :
    readOneAt f cur = .error (.mk "Try to read outside of file end.") := by
  unfold readOneAt File.readSpecificSize File.readAt
  rw [if_pos h]

/-- Claim C6, witness: the amended theorem applied to `badZip`, whose
declared directory offset 1000 lies past the 23-byte source. -/
theorem C6_directory_read_past_end_fails_witness :
    readOneAt (File.ofBytes badZip) 1000 = .error (.mk "Try to read outside of file end.") :=
  C6_directory_read_past_end_fails (File.ofBytes badZip) 1000 (by decide)

/-- Claim C10: the declared entry count is never cross-checked against
the packed directory contents.  `fileEntryNum` reports the declared
count verbatim while the iterator state depends only on the directory
offset and size, so changing the declared count changes nothing about
iteration; concretely, an archive declaring 5 entries over a 46-byte
directory range that packs exactly one record reports 5 yet yields that
one record and then reaches the end, with no error for the
disagreement. -/
theorem C10_entry_count_not_cross_checked :
    (∀ (e : EOCDRecord) (n : Nat),
        fileEntryNum { e with cdEntryNum := n } = n ∧
        mkCDReaderState { e with cdEntryNum := n } = mkCDReaderState e) ∧
    fileEntryNum ⟨5, 46, 0⟩ = 5 ∧
    CDReader.readOne cdRecFile (mkCDReaderState ⟨5, 46, 0⟩) = .ok (baseEntry, ⟨46, 46⟩) ∧
    CDReader.isEnd ⟨46, 46⟩ = true :=
  ⟨fun _ _ => ⟨rfl, rfl⟩, rfl, rfl, rfl⟩

/-- Claim C4, counterexample: an iterator whose cursor is at the end of
an empty directory range still succeeds in `readOne` when the bytes at
the cursor happen to form a complete central-directory record; no
end-of-range check is performed. -/
theorem C4_counterexample :
    CDReader.isEnd ⟨0, 0⟩ = true ∧
    CDReader.readOne cdRecFile ⟨0, 0⟩ = .ok (baseEntry, ⟨46, 0⟩) :=
  ⟨rfl, rfl⟩

/-- Claim C4, amended: `readOne` performs no end-of-range check; at or
past the end it simply attempts to parse at the cursor, so it fails when
the 46-byte header read fails or when the magic `50 4B 01 02` does not
match, and its success is unchanged under any change of the end offset. -/
theorem C4_no_end_check (f : File) (s : CDReaderState) (_h : CDReader.isEnd s = true) :
    (∀ er, f.readSpecificSize s.curOffset 46 "Fail to read expected size in CDReader" = .error er →
        CDReader.readOne f s = .error er) ∧
    (∀ buf, f.readSpecificSize s.curOffset 46 "Fail to read expected size in CDReader" = .ok buf →
        ¬(buf.getD 0 0 = 0x50 ∧ buf.getD 1 0 = 0x4b ∧ buf.getD 2 0 = 0x01 ∧ buf.getD 3 0 = 0x02) →
        CDReader.readOne f s = .error (.mk "Central Directory header signature does not match.")) ∧
    (∀ endOffset2, (CDReader.readOne f ⟨s.curOffset, endOffset2⟩).isOk =
        (CDReader.readOne f s).isOk) := by
  refine ⟨?_, ?_, ?_⟩
  · intro er her
    unfold CDReader.readOne readOneAt
    simp only [her]
  · intro buf hbuf hsig
    unfold CDReader.readOne readOneAt
    simp only [hbuf]
    rw [if_neg hsig]
  · intro e2
    cases h2 : readOneAt f s.curOffset with
    | error er => simp [CDReader.readOne, h2]
    | ok pr =>
      simp only [CDReader.readOne, h2]
      rfl

/-- Claim C4, witness: the amended theorem applied to a cursor at the
end over 46 zero bytes, whose signature does not match. -/
theorem C4_no_end_check_witness :
    CDReader.readOne zeroFile ⟨0, 0⟩ =
      .error (.mk "Central Directory header signature does not match.") :=
  (C4_no_end_check zeroFile ⟨0, 0⟩ rfl).2.1 (List.replicate 46 0) rfl (by decide)

/-- Claim C5: resolving the content offset reads the 30-byte Local File
Header at `entry.localHeaderOffset` and returns exactly
`localHeaderOffset + 30 + fileNameLength + extraFieldLength` with both
lengths decoded from that local header; it fails when the local
signature is not `50 4B 03 04` or when the computed offset is not
strictly below the source size; and the central entry's own length,
size and method fields play no part in the resolution. -/
theorem C5_content_offset_resolution (f : File) (e : CDRecord) (buf : List Nat)
    (h : f.readSpecificSize e.localHeaderOffset 30
        "Fail to read expected size in FileEntryReader" = .ok buf) :
    (readFileContentOffset f e =
      if buf.getD 0 0 = 0x50 ∧ buf.getD 1 0 = 0x4b ∧ buf.getD 2 0 = 0x03 ∧ buf.getD 3 0 = 0x04 then
        if e.localHeaderOffset + 30 + Read2Byte buf 26 + Read2Byte buf 28 < f.size then
          .ok (e.localHeaderOffset + 30 + Read2Byte buf 26 + Read2Byte buf 28)
        else
          .error (.mk "Wrong local file header. File content offset exceeds file size.")
      else
        .error (.mk "Local File header signature does not match.")) ∧
    (∀ fn ex cs us cm,
      readFileContentOffset f
        { e with fileNameLength := fn, extraFieldLength := ex, compressedSize := cs,
                 uncompressedSize := us, compressionMethod := cm } =
        readFileContentOffset f e) := by
  constructor
  · unfold readFileContentOffset
    simp only [h]
    by_cases hs : buf.getD 0 0 = 0x50 ∧ buf.getD 1 0 = 0x4b ∧ buf.getD 2 0 = 0x03 ∧ buf.getD 3 0 = 0x04
    · rw [if_pos hs, if_pos hs]
      by_cases hlt : e.localHeaderOffset + 30 + Read2Byte buf 26 + Read2Byte buf 28 < f.size
      · rw [if_neg (by omega), if_pos hlt]
      · rw [if_pos (by omega), if_neg hlt]
    · rw [if_neg hs, if_neg hs]
  · intro fn ex cs us cm
    rfl

/-- Claim C5, witness: resolution on the concrete archive returns
`0 + 30 + 0 + 0 = 30`. -/
theorem C5_content_offset_resolution_witness :
    readFileContentOffset storeFile storeEntry = .ok 30 := by
  have h := (C5_content_offset_resolution storeFile storeEntry lfh30 rfl).1
  rw [h, if_pos (by decide), if_pos (by decide)]
  rfl

/-- Claim C2, counterexample: with an inflate outcome that reports
stream end and fills the destination exactly but leaves one input byte
unconsumed, `readContent` succeeds; unconsumed input does not make it
fail, because the source never examines `avail_in`. -/
theorem C2_counterexample :
    readContent leftoverPrim defFile defEntry = .ok [7, 7] ∧
    (leftoverPrim [9, 9, 9] defEntry.uncompressedSize).availIn ≠ 0 :=
  ⟨rfl, by decide⟩

/-- Claim C2, amended: for a deflate-method entry whose offset
resolution and raw read succeed, `readContent` succeeds exactly when the
inflate call reports status `Z_STREAM_END` (1) with `total_out` equal to
`entry.uncompressedSize` — producing more or fewer bytes or a
non-terminated stream fails — and on success it returns the
`uncompressedSize`-byte destination buffer; whether input was left
unconsumed is not part of the condition. -/
theorem C2_deflate_success_iff (pr : InflatePrim) (f : File) (e : CDRecord)
    (off : Nat) (raw : List Nat)
    (h1 : readFileContentOffset f e = .ok off)
    (h2 : readRawContentAt f e off = .ok raw)
    (hm : e.compressionMethod = 8) :
    ((readContent pr f e).isOk = true ↔
      ((pr raw e.uncompressedSize).status = 1 ∧
        (pr raw e.uncompressedSize).totalOut = e.uncompressedSize)) ∧
    (∀ bs, readContent pr f e = .ok bs →
        bs = fillBuffer e.uncompressedSize (pr raw e.uncompressedSize).output) := by
  have hlen : raw.length = e.compressedSize := readRawContentAt_length h2
  have hsrc : raw.take e.compressedSize = raw := by
    rw [← hlen]
    exact List.take_length raw
  have hfin : readContent pr f e =
      (if (pr raw e.uncompressedSize).status ≠ 1 then
        .error (.mk ("Fail to inflate: " ++ toString (pr raw e.uncompressedSize).status))
      else if (pr raw e.uncompressedSize).totalOut ≠ e.uncompressedSize then
        .error (.mk "Not enough deflate result.")
      else
        .ok (fillBuffer e.uncompressedSize (pr raw e.uncompressedSize).output)) := by
    unfold readContent
    simp only [h1, h2]
    rw [if_neg (by omega), if_neg (by omega)]
    unfold decompressRawContent
    rw [if_neg (by omega), if_neg (by omega), if_neg (by omega)]
    unfold doInflate
    rw [hsrc]
  constructor
  · rw [hfin]
    by_cases hst : (pr raw e.uncompressedSize).status = 1
    · by_cases hto : (pr raw e.uncompressedSize).totalOut = e.uncompressedSize
      · rw [if_neg (by simp [hst]), if_neg (by simp [hto])]
        simp [hst, hto, Except.isOk, Except.toBool]
      · rw [if_neg (by simp [hst]), if_pos hto]
        simp [hst, hto, Except.isOk, Except.toBool]
    · rw [if_pos hst]
      simp [hst, Except.isOk, Except.toBool]
  · intro bs hbs
    rw [hfin] at hbs
    split at hbs
    · exact Except.noConfusion hbs
    · split at hbs
      · exact Except.noConfusion hbs
      · injection hbs with h3
        exact h3.symm

/-- Claim C2, witness: the amended theorem applied to the concrete
deflate archive with a well-behaved inflate outcome. -/
theorem C2_deflate_success_iff_witness :
    (readContent goodPrim defFile defEntry).isOk = true :=
  ((C2_deflate_success_iff goodPrim defFile defEntry 30 [9, 9, 9] rfl rfl rfl).1).mpr
    ⟨rfl, rfl⟩

/-- Characterization of the backward scan `findAux`: it yields `p`
exactly when `p` is an accepted candidate at or below the start position
and no larger position up to the start is accepted. -/
theorem findAux_eq_some (buf : List Nat) (len : Nat) (start p : Nat) :
    findAux buf len start = some p ↔
      (p ≤ start ∧ eocdrAccept buf len p ∧
        ∀ q, p < q → q ≤ start → ¬eocdrAccept buf len q) := by
  induction start with
  | zero =>
    constructor
    · intro h
      unfold findAux at h
      split at h
      · rename_i hacc
        injection h with h1
        subst h1
        exact ⟨Nat.le_refl 0, hacc, fun q hq1 hq2 => ((by omega : False).elim)⟩
      · exact Option.noConfusion h
    · rintro ⟨hp, hacc, _⟩
      have hp0 : p = 0 := Nat.le_zero.mp hp
      subst hp0
      unfold findAux
      rw [if_pos hacc]
  | succ n ih =>
    constructor
    · intro h
      unfold findAux at h
      split at h
      · rename_i hacc
        injection h with h1
        subst h1
        exact ⟨Nat.le_refl _, hacc, fun q hq1 hq2 => ((by omega : False).elim)⟩
      · rename_i hacc
        obtain ⟨hp, hacc2, hmax⟩ := ih.mp h
        refine ⟨Nat.le_succ_of_le hp, hacc2, ?_⟩
        intro q hq1 hq2
        rcases Nat.lt_or_ge q (n + 1) with h2 | h2
        · exact hmax q hq1 (by omega)
        · have hq : q = n + 1 := by omega
          subst hq
          exact hacc
    · rintro ⟨hp, hacc, hmax⟩
      unfold findAux
      rcases Nat.lt_or_ge p (n + 1) with h2 | h2
      · rw [if_neg (hmax (n + 1) h2 (Nat.le_refl _))]
        exact ih.mpr ⟨by omega, hacc, fun q hq1 hq2 => hmax q hq1 (by omega)⟩
      · have hp2 : p = n + 1 := by omega
        subst hp2
        rw [if_pos hacc]

/-- Claim C9: when the block scan returns position `p`, that position is
an accepted candidate (signature `50 4B 05 06` with a consistent comment
length) and no accepted candidate lies closer to the end of the block:
the backward scan stops at the largest accepted offset, and the record
is decoded from it. -/
theorem C9_scan_returns_largest (buf : List Nat) (len p : Nat)
    (h : findEndOfCDRInBlock buf len = some p) :
    eocdrAccept buf len p ∧ p + 22 ≤ len ∧
      ∀ q, p < q → q + 22 ≤ len → ¬eocdrAccept buf len q := by
  unfold findEndOfCDRInBlock at h
  split at h
  · exact Option.noConfusion h
  · rename_i hlen
    obtain ⟨hp, hacc, hmax⟩ := (findAux_eq_some buf len (len - 22) p).mp h
    refine ⟨hacc, by omega, ?_⟩
    intro q hq1 hq2
    exact hmax q hq1 (by omega)

/-- Claim C9, witness: on a block holding two accepted candidates (at
offsets 0 and 22), the scan returns the one closest to the end. -/
theorem C9_scan_returns_largest_witness :
    findEndOfCDRInBlock twoRecBuf 44 = some 22 ∧
    eocdrAccept twoRecBuf 44 22 ∧ eocdrAccept twoRecBuf 44 0 :=
  ⟨rfl, (C9_scan_returns_largest twoRecBuf 44 22 rfl).1, by decide⟩

/-- Byte-level description of the 0-entry archive family: signature
bytes at 0..3, the comment-length field at 20..21, zeros elsewhere. -/
theorem emptyZipBytes_getD (n i : Nat) :
    (emptyZipBytes n).getD i 0 =
      if i = 0 then 80 else if i = 1 then 75 else if i = 2 then 5 else if i = 3 then 6
      else if i = 20 then n % 256 else if i = 21 then n / 256 else 0 := by
  by_cases hlt : i < 22
  · interval_cases i <;> simp [emptyZipBytes]
  · rw [if_neg (by omega), if_neg (by omega), if_neg (by omega), if_neg (by omega),
      if_neg (by omega), if_neg (by omega)]
    unfold emptyZipBytes
    rw [List.getD_append_right _ _ _ _ (by simp; omega)]
    simp [List.getD_eq_getElem?_getD]

/-- Truncating the 0-entry archive bytes modulo 256 changes nothing when
the comment length fits in the two-byte field region used here. -/
theorem emptyZipBytes_map_mod (n : Nat) (h2 : n ≤ 1002) :
    (emptyZipBytes n).map (fun b => b % 256) = emptyZipBytes n := by
  unfold emptyZipBytes
  simp only [List.map_append, List.map_cons, List.map_nil, List.map_replicate]
  norm_num
  omega

/-- Claim C3, counterexample: the minimal 22-byte archive (EOCDR with
entry count 0, directory size 0, empty comment) is rejected by
`readEOCDRecord`, because the window loop requires strictly more than 22
bytes (`readSize <= EOCDR_SIZE` throws). -/
theorem C3_counterexample :
    readEOCDRecord (File.ofBytes minimal22) =
      .error (.mk "Can\x27t read enough size for End of Central Directory Record. Too small file or read error.") :=
  rfl

/-- Claim C3, amended: a valid archive with 0 entries opens successfully
with `entryCount() = 0` and an immediately-ended iterator provided the
trailing read returns strictly more than 22 bytes — here the family of
archives consisting of the EOCDR (entry count 0, directory size 0,
directory offset 0) followed by a comment of `n` zero bytes, `1 ≤ n ≤
1002`; the minimal 22-byte archive itself (`n = 0`) is instead
rejected. -/
theorem C3_empty_archive_opens (n : Nat) (h1 : 1 ≤ n) (h2 : n ≤ 1002) :
    readEOCDRecord (File.ofBytes (emptyZipBytes n)) = .ok ⟨0, 0, 0⟩ ∧
    fileEntryNum ⟨0, 0, 0⟩ = 0 ∧
    CDReader.isEnd (mkCDReaderState ⟨0, 0, 0⟩) = true := by
  have hlenb : (emptyZipBytes n).length = 22 + n := by
    simp [emptyZipBytes]
    omega
  have hnosig : ∀ q, 1 ≤ q → q ≤ n →
      ¬((emptyZipBytes n).getD q 0 = 80 ∧ (emptyZipBytes n).getD (q + 1) 0 = 75) := by
    intro q hq1 hq2 hc
    obtain ⟨c1, c2⟩ := hc
    rw [emptyZipBytes_getD] at c1
    rw [emptyZipBytes_getD] at c2
    split_ifs at c1 c2 <;> omega
  have hacc0 : eocdrAccept (emptyZipBytes n) (22 + n) 0 := by
    refine ⟨?_, ?_, ?_, ?_, ?_⟩
    · rw [emptyZipBytes_getD]; norm_num
    · rw [emptyZipBytes_getD]; norm_num
    · rw [emptyZipBytes_getD]; norm_num
    · rw [emptyZipBytes_getD]; norm_num
    · unfold Read2Byte
      rw [emptyZipBytes_getD, emptyZipBytes_getD]
      norm_num
      omega
  have hfind : findEndOfCDRInBlock (emptyZipBytes n) (22 + n) = some 0 := by
    unfold findEndOfCDRInBlock
    rw [if_neg (by omega)]
    have hsub : 22 + n - 22 = n := by omega
    rw [hsub]
    refine (findAux_eq_some (emptyZipBytes n) (22 + n) n 0).mpr ⟨Nat.zero_le n, hacc0, ?_⟩
    intro q hq1 hq2 hacc
    exact hnosig q hq1 hq2 ⟨hacc.1, hacc.2.1⟩
  have hread : (File.ofBytes (emptyZipBytes n)).readAt 0 1024 = .ok (emptyZipBytes n) := by
    unfold File.readAt
    rw [if_neg (by omega)]
    rw [show (File.ofBytes (emptyZipBytes n)).readAtImpl 0 1024 =
        ((emptyZipBytes n).drop 0).take 1024 from rfl]
    rw [List.drop_zero, List.take_of_length_le (by omega)]
    rw [emptyZipBytes_map_mod n h2]
  have hattempt : attemptWindow (File.ofBytes (emptyZipBytes n)) 1024 = .ok (some ⟨0, 0, 0⟩) := by
    unfold attemptWindow
    rw [show (File.ofBytes (emptyZipBytes n)).size = (emptyZipBytes n).length from rfl]
    rw [if_neg (by omega)]
    simp only [hread]
    unfold scanBlock
    rw [if_neg (by omega)]
    rw [hlenb, hfind]
    simp only [List.drop_zero, Read2Byte, Read4Byte, emptyZipBytes_getD]
    norm_num
  refine ⟨?_, rfl, rfl⟩
  unfold readEOCDRecord
  simp only [hattempt]

/-- Claim C3, witness: the amended theorem at comment length 1 (a
23-byte archive). -/
theorem C3_empty_archive_opens_witness :
    readEOCDRecord (File.ofBytes (emptyZipBytes 1)) = .ok ⟨0, 0, 0⟩ ∧
    fileEntryNum ⟨0, 0, 0⟩ = 0 ∧
    CDReader.isEnd (mkCDReaderState ⟨0, 0, 0⟩) = true :=
  C3_empty_archive_opens 1 (by decide) (by decide)

/-- Candidate acceptance inside a trailing window equals acceptance at
the corresponding absolute position of the whole byte sequence. -/
theorem eocdrAccept_drop (m : List Nat) (o rel : Nat) (ho : o ≤ m.length) :
    eocdrAccept (m.drop o) (m.length - o) rel ↔ eocdrAccept m m.length (o + rel) := by
  unfold eocdrAccept Read2Byte
  simp only [getD_drop_add]
  rw [show o + (rel + 1) = o + rel + 1 from by omega,
    show o + (rel + 2) = o + rel + 2 from by omega,
    show o + (rel + 3) = o + rel + 3 from by omega,
    show o + (rel + 20) = o + rel + 20 from by omega,
    show o + (rel + 20 + 1) = o + rel + 20 + 1 from by omega]
  constructor
  · rintro ⟨c1, c2, c3, c4, c5⟩
    exact ⟨c1, c2, c3, c4, by omega⟩
  · rintro ⟨c1, c2, c3, c4, c5⟩
    exact ⟨c1, c2, c3, c4, by omega⟩

/-- Characterization of the block scan for blocks of at least 22 bytes:
it yields `p` exactly when `p` is accepted and is the largest accepted
position in the scan range. -/
theorem findBlock_eq_some_iff (buf : List Nat) (len p : Nat) (hlen : 22 ≤ len) :
    findEndOfCDRInBlock buf len = some p ↔
      (p ≤ len - 22 ∧ eocdrAccept buf len p ∧
        ∀ q, p < q → q ≤ len - 22 → ¬eocdrAccept buf len q) := by
  unfold findEndOfCDRInBlock
  rw [if_neg (by omega)]
  exact findAux_eq_some buf len (len - 22) p

/-- On an in-memory byte source, one window attempt reads the trailing
`w` bytes and processes exactly the corresponding suffix of the
(byte-truncated) contents. -/
theorem attemptWindow_ofBytes (bytes : List Nat) (w : Nat) :
    attemptWindow (File.ofBytes bytes) w =
      scanBlock ((bytes.map (fun b => b % 256)).drop
        (if bytes.length > w then bytes.length - w else 0)) := by
  unfold attemptWindow File.readAt
  rw [show (File.ofBytes bytes).size = bytes.length from rfl]
  rw [if_neg (by split <;> omega)]
  rw [show (File.ofBytes bytes).readAtImpl
      (if bytes.length > w then bytes.length - w else 0) w =
      (bytes.drop (if bytes.length > w then bytes.length - w else 0)).take w from rfl]
  rw [List.map_take, List.map_drop]
  rw [List.take_of_length_le (by
    rw [List.length_drop, List.length_map]
    split <;> omega)]

/-- Claim C8: the trailing-window locate is monotone in the window size
on every in-memory byte source — whenever the smaller window finds a
record, every window at least as large (in particular the 65KB fallback
relative to the 1024-byte window) yields exactly the same decoded
(entryCount, directorySize, directoryOffset) triple. -/
theorem C8_window_monotone (bytes : List Nat) (w1 w2 : Nat) (r : EOCDRecord)
    (hw : w1 ≤ w2)
    (h1 : attemptWindow (File.ofBytes bytes) w1 = .ok (some r)) :
    attemptWindow (File.ofBytes bytes) w2 = .ok (some r) := by
  rw [attemptWindow_ofBytes] at h1
  rw [attemptWindow_ofBytes]
  set m := bytes.map (fun b => b % 256) with hm
  have hmlen : m.length = bytes.length := by rw [hm, List.length_map]
  set o1 := if bytes.length > w1 then bytes.length - w1 else 0 with ho1
  set o2 := if bytes.length > w2 then bytes.length - w2 else 0 with ho2
  have ho1b : o1 ≤ bytes.length ∧ bytes.length - o1 ≤ w1 := by rw [ho1]; split <;> omega
  have ho2b : o2 ≤ bytes.length ∧ bytes.length - o2 ≤ w2 := by rw [ho2]; split <;> omega
  have ho21 : o2 ≤ o1 := by rw [ho1, ho2]; split <;> split <;> omega
  have T1 : ∀ rel, eocdrAccept (m.drop o1) (bytes.length - o1) rel ↔
      eocdrAccept m bytes.length (o1 + rel) := by
    intro rel
    have t := eocdrAccept_drop m o1 rel (by omega)
    rw [hmlen] at t
    exact t
  have T2 : ∀ rel, eocdrAccept (m.drop o2) (bytes.length - o2) rel ↔
      eocdrAccept m bytes.length (o2 + rel) := by
    intro rel
    have t := eocdrAccept_drop m o2 rel (by omega)
    rw [hmlen] at t
    exact t
  unfold scanBlock at h1
  rw [List.length_drop, hmlen] at h1
  split at h1
  · exact Except.noConfusion h1
  · rename_i hgt1
    cases hf1 : findEndOfCDRInBlock (m.drop o1) (bytes.length - o1) with
    | none =>
      simp only [hf1] at h1
      exact Option.noConfusion (Except.ok.inj h1)
    | some p =>
      simp only [hf1] at h1
      have hr : r = ⟨Read2Byte ((m.drop o1).drop p) 10, Read4Byte ((m.drop o1).drop p) 12,
          Read4Byte ((m.drop o1).drop p) 16⟩ :=
        (Option.some.inj (Except.ok.inj h1)).symm
      obtain ⟨hp, hacc, hmax⟩ := (findBlock_eq_some_iff _ _ p (by omega)).mp hf1
      have haccP : eocdrAccept m bytes.length (o1 + p) := (T1 p).mp hacc
      have habs : ∀ Q, o1 + p < Q → Q ≤ bytes.length - 22 →
          ¬eocdrAccept m bytes.length Q := by
        intro Q hQ1 hQ2 haccQ
        apply hmax (Q - o1) (by omega) (by omega)
        rw [T1 (Q - o1), show o1 + (Q - o1) = Q from by omega]
        exact haccQ
      have hfind2 : findEndOfCDRInBlock (m.drop o2) (bytes.length - o2) =
          some (o1 + p - o2) := by
        apply (findBlock_eq_some_iff _ _ _ (by omega)).mpr
        refine ⟨by omega, ?_, ?_⟩
        · rw [T2 (o1 + p - o2), show o2 + (o1 + p - o2) = o1 + p from by omega]
          exact haccP
        · intro q hq1 hq2 haccq
          rw [T2 q] at haccq
          exact habs (o2 + q) (by omega) (by omega) haccq
      unfold scanBlock
      rw [List.length_drop, hmlen]
      rw [if_neg (by omega)]
      simp only [hfind2]
      rw [hr]
      rw [List.drop_drop, List.drop_drop]
      rw [show o2 + (o1 + p - o2) = o1 + p from by omega]

/-- Claim C8, witness: on a concrete 23-byte archive both the 1024-byte
window and the 65KB fallback window decode the same record. -/
theorem C8_window_monotone_witness :
    attemptWindow (File.ofBytes (emptyZipBytes 1)) 1024 = .ok (some ⟨0, 0, 0⟩) ∧
    attemptWindow (File.ofBytes (emptyZipBytes 1)) (65 * 1024) = .ok (some ⟨0, 0, 0⟩) :=
  ⟨rfl, C8_window_monotone (emptyZipBytes 1) 1024 (65 * 1024) ⟨0, 0, 0⟩ (by decide) rfl⟩
